import Mathlib

/-
Verification of the frame-synthesis and transport-encoding engine of
esp8266_artnet_dmx512 (src/esp8266_artnet_dmx512.ino), as a shallow
embedding in Lean 4.  Machine bytes and 16-bit words are modelled as
Nat with explicit truncation (% 256) where the C code truncates.
Byte arrays are modelled as functions Nat → Nat together with explicit
write loops mirroring the source's for-loops.
-/

set_option maxRecDepth 100000

namespace ArtnetDmx

/-- Modelled from the spec: the number of DMX channel slots.  The constant
DMX_CHANNELS comes from the header i2s_dmx.h, which is not part of the
available sources; the spec fixes the maximum channel count at 512
("one symbol per channel slot (always sized to the maximum channel count,
e.g. 512)"). -/
def DMX_CHANNELS : Nat := 512

/-- Modelled from the spec: the size in 16-bit words of the mark-before-break
region of the transmission frame buffer (field mark_before_break of
i2s_packet in the missing header i2s_dmx.h).  The source's debugI2S comment
shows ten 0xffff words of mark before break. -/
def MBB_WORDS : Nat := 10

/-- Embedding of flipByte (src/esp8266_artnet_dmx512.ino:460-464).
Each C assignment to the local byte variable is an intermediate value here;
the masks keep every intermediate below 256, and the final return truncates
to a byte as the C return type does. -/
def flipByte (c : Nat) : Nat :=
  let c1 := ((c >>> 1) &&& 0b01010101) ||| ((c <<< 1) &&& 0b10101010)
  let c2 := ((c1 >>> 2) &&& 0b00110011) ||| ((c1 <<< 2) &&& 0b11001100)
  ((c2 >>> 4) ||| (c2 <<< 4)) % 256

/-- High byte of a 16-bit word. -/
def hiByte (w : Nat) : Nat := (w >>> 8) % 256

/-- Low byte of a 16-bit word. -/
def loByte (w : Nat) : Nat := w % 256

/-- Pointwise array write: the array f with index i set to v. -/
def setWord (f : Nat → Nat) (i v : Nat) : Nat → Nat :=
  fun j => if j = i then v else f j

/-- Modelled from the spec: the layout of i2s_packet (header i2s_dmx.h missing
from the sources).  Per the spec it is a fixed-size sequence of 16-bit
symbols: one mark-before-break region, one mark-after-break symbol, and one
symbol per channel slot; dmx_bytes holds the null start code symbol at index
0 followed by DMX_CHANNELS channel symbols (the source writes indices 0
through DMX_CHANNELS inclusive). -/
structure i2s_packet where
  mark_before_break : Nat → Nat
  mark_after_break : Nat
  dmx_bytes : Nat → Nat

/-- Embedding of struct global (src/esp8266_artnet_dmx512.ino:89-101):
the Channel Buffer plus the DMA-path transmission frame buffer. -/
structure GlobalState where
  universe_ : Nat
  sequence : Nat
  length : Nat
  data : Nat → Nat
  i2s_data : i2s_packet
  i2s_length : Nat

/-- Embedding of struct Config fields consumed by the core (universe,
channels, delay), declared in setup_ota.h and read from
src/esp8266_artnet_dmx512.ino. -/
structure Config where
  universe_ : Nat
  channels : Nat
  delay : Nat

/-- The value written to dmx_bytes[i+1] by one iteration of the I2S update
loop in onDmxPacket (src/esp8266_artnet_dmx512.ino:172-178):
hi is the flipped data byte for in-range channels and 0 past the packet
length, lo carries the framing bits (all stop bits high for the last
symbol, start bit low otherwise). -/
def dmxSymbol (even_length length : Nat) (data : Nat → Nat) (i : Nat) : Nat :=
  let hi : Nat := if i < length then flipByte (data i) else 0
  let lo : Nat := if i = even_length - 1 then 0b0000000011111111 else 0b0000000011111110
  (hi <<< 8) ||| lo

/-- The I2S update loop of onDmxPacket (src/esp8266_artnet_dmx512.ino:172-179)
run for iterations i = 0 .. n-1; iteration i stores dmxSymbol at index i+1,
leaving the start-code symbol at index 0 untouched. -/
def i2sWriteLoop (length : Nat) (data : Nat → Nat) : Nat → (Nat → Nat) → Nat → Nat
  | 0, buf => buf
  | n + 1, buf =>
      setWord (i2sWriteLoop length data n buf) (n + 1) (dmxSymbol DMX_CHANNELS length data n)

/-- The UART copy loop of onDmxPacket (src/esp8266_artnet_dmx512.ino:188-190)
run for iterations i = 0 .. n-1: dst[i] = src[i]. -/
def copyLoop (src : Nat → Nat) : Nat → (Nat → Nat) → Nat → Nat
  | 0, dst => dst
  | n + 1, dst => setWord (copyLoop src n dst) n (src n)

/-- Embedding of onDmxPacket (src/esp8266_artnet_dmx512.ino:125-193),
restricted to its effect on the global universe buffer (the diagnostic
printing and counters touch no buffered state).  When the packet's universe
matches the configured one, the I2S block rewrites the channel symbols of
the transmission frame buffer, then the UART block sets universe and
sequence, lowers length only when the incoming length is below 512, and
copies global.length bytes of packet data. -/
def onDmxPacket (cfg : Config) (universe_ length sequence : Nat) (data : Nat → Nat)
    (g : GlobalState) : GlobalState :=
  if universe_ = cfg.universe_ then
    let even_length := DMX_CHANNELS
    let g1 : GlobalState :=
      { g with i2s_data :=
          { g.i2s_data with
              dmx_bytes := i2sWriteLoop length data even_length g.i2s_data.dmx_bytes } }
    let g2 : GlobalState :=
      { g1 with
          universe_ := universe_
          sequence := sequence
          length := if length < 512 then length else g1.length }
    { g2 with data := copyLoop data g2.length g2.data }
  else
    g

/-- The MIN macro (src/esp8266_artnet_dmx512.ino:60). -/
def MIN (x y : Nat) : Nat := if x < y then x else y

/-- Embedding of outputSerial (src/esp8266_artnet_dmx512.ino:355-374) as the
list of bytes written to Serial1 after sendBreak: the start code 0 followed
by the first MIN(global.length, config.channels) buffered channel values. -/
def outputSerial (cfg : Config) (g : GlobalState) : List Nat :=
  0 :: (List.range (MIN g.length cfg.channels)).map (fun i => g.data i)

/-- The initialisation loop of initI2S (src/esp8266_artnet_dmx512.ino:393-395):
sets dmx_bytes[i] for i = 0 .. n-1 to the start-bit-plus-stop-bits framing
pattern. -/
def initDmxLoop : Nat → (Nat → Nat) → Nat → Nat
  | 0, f => f
  | n + 1, f => setWord (initDmxLoop n f) n 0b0000000011111110

/-- Embedding of initI2S's construction of the transmission frame buffer
(src/esp8266_artnet_dmx512.ino:380-398): zero the whole packet, fill the
mark-before-break region with 0xff bytes, set the mark-after-break word,
give every channel symbol the framing pattern, then give the last symbol
the all-stop-bits-high pattern. -/
def initI2S : i2s_packet :=
  let zeroed : i2s_packet :=
    { mark_before_break := fun _ => 0, mark_after_break := 0, dmx_bytes := fun _ => 0 }
  let withMbb : i2s_packet := { zeroed with mark_before_break := fun _ => 0xffff }
  let withMab : i2s_packet := { withMbb with mark_after_break := 0b000001110 }
  let withDmx : i2s_packet :=
    { withMab with dmx_bytes := initDmxLoop DMX_CHANNELS withMab.dmx_bytes }
  { withDmx with
      dmx_bytes := setWord withDmx.dmx_bytes DMX_CHANNELS 0b0000000011111111 }

/-- Total number of 16-bit words in the transmission frame buffer:
sizeof(global.i2s_data) in words (mark-before-break region, mark-after-break
symbol, start-code symbol plus DMX_CHANNELS channel symbols). -/
def I2S_PACKET_WORDS : Nat := MBB_WORDS + 1 + (DMX_CHANNELS + 1)

/-- sizeof(global.i2s_data) in bytes: two bytes per 16-bit word. -/
def I2S_PACKET_BYTES : Nat := 2 * I2S_PACKET_WORDS

/-- Serialisation of the transmission frame buffer as the sequence of 16-bit
words handed to the DMA peripheral. -/
def i2s_packet.words (p : i2s_packet) : List Nat :=
  (List.range MBB_WORDS).map p.mark_before_break
    ++ [p.mark_after_break]
    ++ (List.range (DMX_CHANNELS + 1)).map p.dmx_bytes

/-- Embedding of outputI2S (src/esp8266_artnet_dmx512.ino:439-446): submits
the whole fixed-size transmission frame buffer to i2s_write_buffer together
with the frame count sizeof(global.i2s_data) / 4. -/
def outputI2S (g : GlobalState) : List Nat × Nat :=
  (g.i2s_data.words, I2S_PACKET_BYTES / 4)

/-- The global buffer as initialised in setup
(src/esp8266_artnet_dmx512.ino:210-223): universe 0, sequence 0, length 512,
all channel values zero, transmission frame buffer as built by initI2S. -/
def initialState : GlobalState :=
  { universe_ := 0
    sequence := 0
    length := 512
    data := fun _ => 0
    i2s_data := initI2S
    i2s_length := I2S_PACKET_BYTES }

/-- The scheduler state of loop (src/esp8266_artnet_dmx512.ino:330-343):
the tic_loop timestamp of the last fired tick. -/
structure LoopState where
  tic_loop : Nat

/-- Embedding of the rate-limited output section of loop
(src/esp8266_artnet_dmx512.ino:332-343).  Time is modelled as an unbounded
Nat with invocation times taken at or after the stored timestamp, so the
unsigned wraparound of millis() does not arise.  Returns the new state and
whether this invocation fired the transport encoders. -/
def loopTick (cfg : Config) (now : Nat) (s : LoopState) : LoopState × Bool :=
  if now - s.tic_loop > cfg.delay then ({ tic_loop := now }, true) else (s, false)

/-- One received packet, for iterating onDmxPacket. -/
structure Packet where
  universe_ : Nat
  length : Nat
  sequence : Nat
  data : Nat → Nat

/-- A finite sequence of onDmxPacket calls applied in order. -/
def applyPackets (cfg : Config) (ps : List Packet) (g : GlobalState) : GlobalState :=
  ps.foldl (fun s p => onDmxPacket cfg p.universe_ p.length p.sequence p.data s) g

/-! ### Concrete fixtures for witnesses and counterexamples -/

/-- Sample configuration: universe 0, channels 3, delay 25 ms. -/
def cfgA : Config := { universe_ := 0, channels := 3, delay := 25 }

/-- Sample configuration: universe 0, channels 512, delay 25 ms. -/
def cfgB : Config := { universe_ := 0, channels := 512, delay := 25 }

/-- Sample configuration whose universe is 1. -/
def cfgC : Config := { universe_ := 1, channels := 512, delay := 25 }

/-- Sample packet data 1, 2, 3, ... -/
def dataA : Nat → Nat := fun i => i + 1

/-- State after receiving a matching 3-channel packet in the fresh state. -/
def stateA : GlobalState := onDmxPacket cfgA 0 3 1 dataA initialState

/-- Sample packet data, constant 7. -/
def data7 : Nat → Nat := fun _ => 7

/-- A matching packet of length 3 carrying dataA. -/
def packetA : Packet := { universe_ := 0, length := 3, sequence := 1, data := dataA }

/-- State after a matching 300-channel packet in the fresh state. -/
def state6a : GlobalState := onDmxPacket cfgB 0 300 1 dataA initialState

/-- State after a further matching 400-channel packet. -/
def state6b : GlobalState := onDmxPacket cfgB 0 400 2 dataA state6a

/-- State after a matching 512-channel packet of constant 7 following the
300-channel packet. -/
def state7b : GlobalState := onDmxPacket cfgB 0 512 2 data7 state6a

/-- Framing invariant on the channel-symbol array: every slot's low byte is
the start-bit pattern, except the last slot whose low byte is all stop
bits. -/
def LowBytesOk (b : Nat → Nat) : Prop :=
  ∀ j, j ≤ DMX_CHANNELS →
    loByte (b j) = if j = DMX_CHANNELS then 0b0000000011111111 else 0b0000000011111110

/-! ### Helper lemmas about the loops and byte arithmetic -/

/-- flipByte always yields a byte. -/
theorem flipByte_lt (c : Nat) : flipByte c < 256 := by
  unfold flipByte
  exact Nat.mod_lt _ (by norm_num)

/-- Packing a byte with the low framing byte 0b11111110. -/
theorem shiftOr_fe : ∀ h : Fin 256, (h.val <<< 8) ||| 0b11111110 = 256 * h.val + 254 := by
  decide

/-- Packing a byte with the low framing byte 0b11111111. -/
theorem shiftOr_ff : ∀ h : Fin 256, (h.val <<< 8) ||| 0b11111111 = 256 * h.val + 255 := by
  decide

/-- High and low byte of a packed 16-bit word. -/
theorem hiByte_loByte_pack (h lo : Nat) (hh : h < 256) (hlo : lo < 256) :
    hiByte (256 * h + lo) = h ∧ loByte (256 * h + lo) = lo := by
  unfold hiByte loByte
  rw [Nat.shiftRight_eq_div_pow]
  constructor <;> omega

/-- Pointwise description of the I2S update loop: indices 1 .. n hold the
freshly encoded symbols, all other indices are untouched. -/
theorem i2sWriteLoop_apply (length : Nat) (data : Nat → Nat) (n : Nat) (buf : Nat → Nat)
    (j : Nat) :
    i2sWriteLoop length data n buf j =
      if 1 ≤ j ∧ j ≤ n then dmxSymbol DMX_CHANNELS length data (j - 1) else buf j := by
  induction n with
  | zero =>
      rw [i2sWriteLoop, if_neg (by omega)]
  | succ n ih =>
      unfold i2sWriteLoop setWord
      by_cases hj : j = n + 1
      · subst hj
        simp
      · rw [if_neg hj, ih]
        by_cases h1 : 1 ≤ j ∧ j ≤ n
        · rw [if_pos h1, if_pos ⟨h1.1, by omega⟩]
        · rw [if_neg h1, if_neg (by omega)]

/-- Pointwise description of the UART copy loop: indices below n come from
the packet, the rest are untouched. -/
theorem copyLoop_apply (src : Nat → Nat) (n : Nat) (dst : Nat → Nat) (j : Nat) :
    copyLoop src n dst j = if j < n then src j else dst j := by
  induction n with
  | zero =>
      rw [copyLoop, if_neg (by omega)]
  | succ n ih =>
      unfold copyLoop setWord
      by_cases hj : j = n
      · subst hj
        simp
      · rw [if_neg hj, ih]
        by_cases h1 : j < n
        · rw [if_pos h1, if_pos (by omega)]
        · rw [if_neg h1, if_neg (by omega)]

/-- Pointwise description of the initialisation loop. -/
theorem initDmxLoop_apply (n : Nat) (f : Nat → Nat) (j : Nat) :
    initDmxLoop n f j = if j < n then 0b0000000011111110 else f j := by
  induction n with
  | zero =>
      rw [initDmxLoop, if_neg (by omega)]
  | succ n ih =>
      unfold initDmxLoop setWord
      by_cases hj : j = n
      · subst hj
        simp
      · rw [if_neg hj, ih]
        by_cases h1 : j < n
        · rw [if_pos h1, if_pos (by omega)]
        · rw [if_neg h1, if_neg (by omega)]

/-- The channel symbols of the buffer produced by initI2S. -/
theorem initI2S_dmx_bytes (j : Nat) :
    initI2S.dmx_bytes j =
      if j = DMX_CHANNELS then 0b0000000011111111
      else if j < DMX_CHANNELS then 0b0000000011111110
      else 0 := by
  unfold initI2S setWord
  simp only [initDmxLoop_apply]

/-- The matching-universe branch of onDmxPacket, written out. -/
theorem onDmxPacket_match (cfg : Config) (u length sequence : Nat) (data : Nat → Nat)
    (g : GlobalState) (hu : u = cfg.universe_) :
    onDmxPacket cfg u length sequence data g =
      { universe_ := u
        sequence := sequence
        length := if length < 512 then length else g.length
        data := copyLoop data (if length < 512 then length else g.length) g.data
        i2s_data :=
          { g.i2s_data with
              dmx_bytes := i2sWriteLoop length data DMX_CHANNELS g.i2s_data.dmx_bytes }
        i2s_length := g.i2s_length } := by
  unfold onDmxPacket
  rw [if_pos hu]

/-! ### Claim theorems -/

/-- Claim C1: after the break, outputSerial writes a single start code byte 0
and then exactly MIN(length, channels) channel bytes verbatim in index
order; in particular it emits exactly length data bytes when
length ≤ channels and exactly channels bytes when length > channels. -/
theorem uart_frame_encoding (cfg : Config) (g : GlobalState) :
    (outputSerial cfg g).head? = some 0 ∧
    (outputSerial cfg g).tail.length = MIN g.length cfg.channels ∧
    (∀ i, i < MIN g.length cfg.channels →
      (outputSerial cfg g).tail.get? i = some (g.data i)) ∧
    (g.length ≤ cfg.channels → (outputSerial cfg g).tail.length = g.length) ∧
    (cfg.channels < g.length → (outputSerial cfg g).tail.length = cfg.channels) := by
  refine ⟨rfl, by simp [outputSerial], ?_, ?_, ?_⟩
  · intro i hi
    have hr : (List.range (MIN g.length cfg.channels))[i]? = some i :=
      List.getElem?_range hi
    simp [outputSerial, List.get?_eq_getElem?, List.getElem?_map, hr]
  · intro h
    simp only [outputSerial, List.tail_cons, List.length_map, List.length_range, MIN]
    split <;> omega
  · intro h
    simp only [outputSerial, List.tail_cons, List.length_map, List.length_range, MIN]
    split <;> omega

/-- Witness for C1 at a concrete state: a matching 3-channel packet with
channels = 3 yields a start code followed by the 3 packet bytes. -/
theorem uart_frame_encoding_witness :
    stateA.length ≤ cfgA.channels ∧
    (outputSerial cfgA stateA).tail.length = stateA.length ∧
    (outputSerial cfgA stateA).head? = some 0 ∧
    (outputSerial cfgA stateA).tail.get? 0 = some (stateA.data 0) := by
  have h := uart_frame_encoding cfgA stateA
  have hle : stateA.length ≤ cfgA.channels := by decide
  exact ⟨hle, h.2.2.2.1 hle, h.1, h.2.2.1 0 (by decide)⟩

/-- Claim C2: a packet for a different universe than the configured one
leaves the whole global buffer (Channel Buffer and transmission frame
buffer) unchanged. -/
theorem onDmxPacket_filters_universe (cfg : Config) (u len seq : Nat) (data : Nat → Nat)
    (g : GlobalState) (h : u ≠ cfg.universe_) :
    onDmxPacket cfg u len seq data g = g := by
  unfold onDmxPacket
  rw [if_neg h]

/-- Witness for C2: a packet for universe 0 under configured universe 1 is a
no-op on the fresh state. -/
theorem onDmxPacket_filters_universe_witness :
    (0 : Nat) ≠ cfgC.universe_ ∧
    onDmxPacket cfgC 0 3 1 dataA initialState = initialState :=
  ⟨by decide, onDmxPacket_filters_universe cfgC 0 3 1 dataA initialState (by decide)⟩

/-- Claim C4: flipByte reverses bit order and is an involution on all 256
byte values; in particular flipByte 0b10000000 = 0b00000001. -/
theorem flipByte_involution :
    (∀ b : Fin 256, flipByte (flipByte b.val) = b.val) ∧
    flipByte 0b10000000 = 0b00000001 := by
  decide

/-- Packing a bounded byte with the framing byte 0b11111110, Nat form. -/
theorem shiftOr_fe_of_lt {h : Nat} (hh : h < 256) :
    (h <<< 8) ||| 0b11111110 = 256 * h + 254 :=
  shiftOr_fe ⟨h, hh⟩

/-- Packing a bounded byte with the framing byte 0b11111111, Nat form. -/
theorem shiftOr_ff_of_lt {h : Nat} (hh : h < 256) :
    (h <<< 8) ||| 0b11111111 = 256 * h + 255 :=
  shiftOr_ff ⟨h, hh⟩

/-- The low byte of an encoded channel symbol is determined by the slot
position alone: all stop bits high for the last slot, the start-bit
pattern otherwise. -/
theorem loByte_dmxSymbol (len : Nat) (d : Nat → Nat) (i : Nat) :
    loByte (dmxSymbol DMX_CHANNELS len d i) =
      if i = DMX_CHANNELS - 1 then 0b0000000011111111 else 0b0000000011111110 := by
  simp only [dmxSymbol]
  by_cases hl : i = DMX_CHANNELS - 1
  · rw [if_pos hl]
    by_cases hin : i < len
    · rw [if_pos hin, shiftOr_ff_of_lt (flipByte_lt (d i))]
      exact (hiByte_loByte_pack _ 255 (flipByte_lt (d i)) (by norm_num)).2
    · rw [if_neg hin]
      decide
  · rw [if_neg hl]
    by_cases hin : i < len
    · rw [if_pos hin, shiftOr_fe_of_lt (flipByte_lt (d i))]
      exact (hiByte_loByte_pack _ 254 (flipByte_lt (d i)) (by norm_num)).2
    · rw [if_neg hin]
      decide

/-- The high byte of an encoded channel symbol is the flipped data byte for
slots inside the packet length and 0 for the tail slots. -/
theorem hiByte_dmxSymbol (len : Nat) (d : Nat → Nat) (i : Nat) :
    hiByte (dmxSymbol DMX_CHANNELS len d i) =
      if i < len then flipByte (d i) else 0 := by
  simp only [dmxSymbol]
  by_cases hin : i < len
  · rw [if_pos hin]
    by_cases hl : i = DMX_CHANNELS - 1
    · rw [if_pos hl, shiftOr_ff_of_lt (flipByte_lt (d i))]
      exact (hiByte_loByte_pack _ 255 (flipByte_lt (d i)) (by norm_num)).1
    · rw [if_neg hl, shiftOr_fe_of_lt (flipByte_lt (d i))]
      exact (hiByte_loByte_pack _ 254 (flipByte_lt (d i)) (by norm_num)).1
  · rw [if_neg hin]
    by_cases hl : i = DMX_CHANNELS - 1
    · rw [if_pos hl]
      decide
    · rw [if_neg hl]
      decide

/-- The data array after a matching onDmxPacket call. -/
theorem onDmxPacket_data (cfg : Config) (u len seq : Nat) (d : Nat → Nat) (g : GlobalState)
    (hu : u = cfg.universe_) :
    (onDmxPacket cfg u len seq d g).data =
      copyLoop d (if len < 512 then len else g.length) g.data := by
  rw [onDmxPacket_match cfg u len seq d g hu]

/-- The channel-symbol array after a matching onDmxPacket call. -/
theorem onDmxPacket_dmx (cfg : Config) (u len seq : Nat) (d : Nat → Nat) (g : GlobalState)
    (hu : u = cfg.universe_) :
    (onDmxPacket cfg u len seq d g).i2s_data.dmx_bytes =
      i2sWriteLoop len d DMX_CHANNELS g.i2s_data.dmx_bytes := by
  rw [onDmxPacket_match cfg u len seq d g hu]

/-- The stored length after any onDmxPacket call. -/
theorem onDmxPacket_length (cfg : Config) (u len seq : Nat) (d : Nat → Nat)
    (g : GlobalState) :
    (onDmxPacket cfg u len seq d g).length =
      if u = cfg.universe_ ∧ len < 512 then len else g.length := by
  by_cases hu : u = cfg.universe_
  · rw [onDmxPacket_match cfg u len seq d g hu]
    show (if len < 512 then len else g.length) = _
    by_cases hl : len < 512
    · rw [if_pos hl, if_pos (And.intro hu hl)]
    · rw [if_neg hl, if_neg (fun hc => hl hc.2)]
  · unfold onDmxPacket
    rw [if_neg hu, if_neg (fun hc => hu hc.1)]

/-- Claim C3: after a matching packet, every channel index i below the packet
length gets symbol i+1 with high byte flipByte(data i); the symbol's low
byte is the start-bit-plus-7-stop-bits pattern 0b11111110 for every slot
but the last, whose low byte is 0b11111111; with data 0 = 0x01, symbol 1's
high byte is flipByte 0x01 = 0x80. -/
theorem dma_symbol_encoding (cfg : Config) (u len seq : Nat) (d : Nat → Nat)
    (g : GlobalState) (hu : u = cfg.universe_) (i : Nat) (hil : i < len)
    (hic : i < DMX_CHANNELS) :
    hiByte ((onDmxPacket cfg u len seq d g).i2s_data.dmx_bytes (i + 1)) = flipByte (d i) ∧
    (i ≠ DMX_CHANNELS - 1 →
      loByte ((onDmxPacket cfg u len seq d g).i2s_data.dmx_bytes (i + 1)) = 0b11111110) ∧
    (i = DMX_CHANNELS - 1 →
      loByte ((onDmxPacket cfg u len seq d g).i2s_data.dmx_bytes (i + 1)) = 0b11111111) := by
  rw [onDmxPacket_dmx cfg u len seq d g hu, i2sWriteLoop_apply,
      if_pos (And.intro (by omega) (by omega)), Nat.add_sub_cancel]
  refine ⟨?_, ?_, ?_⟩
  · rw [hiByte_dmxSymbol, if_pos hil]
  · intro hne
    rw [loByte_dmxSymbol, if_neg hne]
  · intro heq
    rw [loByte_dmxSymbol, if_pos heq]

/-- Witness for C3: the packet with data 0 = 0x01 puts 0x80 into the high
byte of symbol 1 and the start-bit pattern into its low byte. -/
theorem dma_symbol_encoding_witness :
    hiByte ((onDmxPacket cfgB 0 3 1 dataA initialState).i2s_data.dmx_bytes 1) = 0x80 ∧
    loByte ((onDmxPacket cfgB 0 3 1 dataA initialState).i2s_data.dmx_bytes 1) = 0b11111110 := by
  have h := dma_symbol_encoding cfgB 0 3 1 dataA initialState rfl 0 (by decide) (by decide)
  exact ⟨h.1.trans (by decide), h.2.1 (by decide)⟩

/-- Claim C10: after a matching packet of length L, every tail channel index
i with L ≤ i < DMX_CHANNELS has symbol i+1 with high byte 0: tail channels
are transmitted as zero rather than keeping stale values. -/
theorem dma_tail_channels_zero (cfg : Config) (u len seq : Nat) (d : Nat → Nat)
    (g : GlobalState) (hu : u = cfg.universe_) (i : Nat) (h1 : len ≤ i)
    (h2 : i < DMX_CHANNELS) :
    hiByte ((onDmxPacket cfg u len seq d g).i2s_data.dmx_bytes (i + 1)) = 0 := by
  rw [onDmxPacket_dmx cfg u len seq d g hu, i2sWriteLoop_apply,
      if_pos (And.intro (by omega) (by omega)), Nat.add_sub_cancel,
      hiByte_dmxSymbol, if_neg (by omega)]

/-- Witness for C10: after a 3-channel packet of nonzero data, channel index
5 (symbol 6) carries data high byte 0. -/
theorem dma_tail_channels_zero_witness :
    hiByte ((onDmxPacket cfgB 0 3 1 dataA initialState).i2s_data.dmx_bytes 6) = 0 :=
  dma_tail_channels_zero cfgB 0 3 1 dataA initialState rfl 5 (by decide) (by decide)

/-- Claim C9: the DMA transport always carries the full maximum channel
count: a matching packet writes every one of the DMX_CHANNELS channel
symbols (each becomes the freshly encoded symbol, whatever the packet
length), and outputI2S always submits the whole fixed-size buffer —
its word count and its frame count are constants independent of the
state and of the stored length. -/
theorem dma_full_frame (cfg : Config) (u len seq : Nat) (d : Nat → Nat)
    (g : GlobalState) (hu : u = cfg.universe_) :
    (∀ j, 1 ≤ j → j ≤ DMX_CHANNELS →
      (onDmxPacket cfg u len seq d g).i2s_data.dmx_bytes j =
        dmxSymbol DMX_CHANNELS len d (j - 1)) ∧
    (outputI2S g).1.length = I2S_PACKET_WORDS ∧
    (outputI2S g).2 = I2S_PACKET_BYTES / 4 := by
  refine ⟨?_, ?_, rfl⟩
  · intro j hj1 hj2
    rw [onDmxPacket_dmx cfg u len seq d g hu, i2sWriteLoop_apply,
        if_pos (And.intro hj1 hj2)]
  · simp only [outputI2S, i2s_packet.words, List.length_append, List.length_map,
        List.length_range, List.length_cons, List.length_nil, I2S_PACKET_WORDS]

/-- Witness for C9: concrete instance after a 3-channel packet; channel
symbol 512 is rewritten too, and the submitted frame count is the
constant sizeof / 4. -/
theorem dma_full_frame_witness :
    (onDmxPacket cfgB 0 3 1 dataA initialState).i2s_data.dmx_bytes 512 =
      dmxSymbol DMX_CHANNELS 3 dataA 511 ∧
    (outputI2S initialState).2 = I2S_PACKET_BYTES / 4 := by
  have h := dma_full_frame cfgB 0 3 1 dataA initialState rfl
  exact ⟨h.1 512 (by decide) (by decide), h.2.2⟩

/-- initI2S establishes the framing invariant. -/
theorem lowBytesOk_init : LowBytesOk initI2S.dmx_bytes := by
  intro j hj
  rw [initI2S_dmx_bytes]
  by_cases h : j = DMX_CHANNELS
  · rw [if_pos h, if_pos h]
    decide
  · rw [if_neg h, if_pos (by omega), if_neg h]
    decide

/-- The I2S update loop preserves the framing invariant. -/
theorem lowBytesOk_write (len : Nat) (d : Nat → Nat) (b : Nat → Nat)
    (hb : LowBytesOk b) : LowBytesOk (i2sWriteLoop len d DMX_CHANNELS b) := by
  intro j hj
  rw [i2sWriteLoop_apply]
  by_cases h1 : 1 ≤ j ∧ j ≤ DMX_CHANNELS
  · rw [if_pos h1, loByte_dmxSymbol]
    by_cases h2 : j = DMX_CHANNELS
    · rw [if_pos h2, if_pos (by omega)]
    · rw [if_neg h2, if_neg (by omega)]
  · rw [if_neg h1]
    exact hb j hj

/-- Every sequence of onDmxPacket calls preserves the framing invariant. -/
theorem lowBytesOk_applyPackets (cfg : Config) (ps : List Packet) (g : GlobalState)
    (hg : LowBytesOk g.i2s_data.dmx_bytes) :
    LowBytesOk (applyPackets cfg ps g).i2s_data.dmx_bytes := by
  induction ps generalizing g with
  | nil => exact hg
  | cons p ps ih =>
      show LowBytesOk
        (applyPackets cfg ps
          (onDmxPacket cfg p.universe_ p.length p.sequence p.data g)).i2s_data.dmx_bytes
      apply ih
      by_cases h : p.universe_ = cfg.universe_
      · rw [onDmxPacket_dmx cfg p.universe_ p.length p.sequence p.data g h]
        exact lowBytesOk_write p.length p.data _ hg
      · unfold onDmxPacket
        rw [if_neg h]
        exact hg

/-- Claim C5: after initialization and any finite sequence of onDmxPacket
calls, every channel symbol's low byte equals its initialization value, and
the last channel symbol's low byte is always the all-stop-bits-high
pattern 0b11111111. -/
theorem framing_bits_stable (cfg : Config) (ps : List Packet) (j : Nat)
    (hj : j ≤ DMX_CHANNELS) :
    loByte ((applyPackets cfg ps initialState).i2s_data.dmx_bytes j) =
      loByte (initialState.i2s_data.dmx_bytes j) ∧
    loByte ((applyPackets cfg ps initialState).i2s_data.dmx_bytes DMX_CHANNELS) =
      0b11111111 := by
  have h0 : LowBytesOk initialState.i2s_data.dmx_bytes := lowBytesOk_init
  have hs := lowBytesOk_applyPackets cfg ps initialState h0
  constructor
  · exact (hs j hj).trans (h0 j hj).symm
  · exact (hs DMX_CHANNELS (Nat.le_refl _)).trans (if_pos rfl)

/-- Witness for C5: after one matching 3-channel packet, symbol 5's low byte
equals its initial value and the last symbol's low byte is 0b11111111. -/
theorem framing_bits_stable_witness :
    loByte ((applyPackets cfgB [packetA] initialState).i2s_data.dmx_bytes 5) =
      loByte (initialState.i2s_data.dmx_bytes 5) ∧
    loByte ((applyPackets cfgB [packetA] initialState).i2s_data.dmx_bytes DMX_CHANNELS) =
      0b11111111 :=
  framing_bits_stable cfgB [packetA] 5 (by decide)

/-- Counterexample to claim C6: after a matching 300-channel packet the
stored length is 300, and a following matching 400-channel packet raises it
to 400, so the stored length after a call is not always less than or equal
to the stored length before it. -/
theorem length_raised_after_shrink :
    state6a.length = 300 ∧ state6b.length = 400 ∧ ¬ state6b.length ≤ state6a.length := by
  refine ⟨by decide, by decide, by decide⟩

/-- Claim C6 as amended: the stored length starts at 512; a call for the
configured universe sets it to the incoming length when that is below 512
(which may raise it relative to the current stored value) and leaves it
unchanged otherwise; consequently it never exceeds 512, and once below 512
it never returns to 512. -/
theorem length_update_characterisation (cfg : Config) (u len seq : Nat)
    (d : Nat → Nat) (g : GlobalState) :
    initialState.length = 512 ∧
    (onDmxPacket cfg u len seq d g).length =
      (if u = cfg.universe_ ∧ len < 512 then len else g.length) ∧
    ((onDmxPacket cfg u len seq d g).length = 512 → g.length = 512) ∧
    (g.length ≤ 512 → (onDmxPacket cfg u len seq d g).length ≤ 512) := by
  have hl := onDmxPacket_length cfg u len seq d g
  refine ⟨rfl, hl, ?_, ?_⟩
  · rw [hl]
    by_cases hc : u = cfg.universe_ ∧ len < 512
    · rw [if_pos hc]
      have := hc.2
      omega
    · rw [if_neg hc]
      exact fun h => h
  · rw [hl]
    by_cases hc : u = cfg.universe_ ∧ len < 512
    · rw [if_pos hc]
      have := hc.2
      omega
    · rw [if_neg hc]
      exact fun h => h

/-- Witness for the amended C6 at concrete inputs: a 300-channel packet in
the fresh state keeps the stored length at or below 512 and sets it to
300. -/
theorem length_update_characterisation_witness :
    (onDmxPacket cfgB 0 300 1 dataA initialState).length ≤ 512 ∧
    (onDmxPacket cfgB 0 300 1 dataA initialState).length =
      (if (0 : Nat) = cfgB.universe_ ∧ 300 < 512 then 300 else initialState.length) := by
  have h := length_update_characterisation cfgB 0 300 1 dataA initialState
  exact ⟨h.2.2.2 (by decide), h.2.1⟩

/-- Counterexample to claim C7: a matching packet of length 512 arriving
after a 300-channel packet does not set the stored length from the call's
argument (it stays 300, not 512), and does not copy data[300..512): index
400 keeps its old value 0 rather than the packet byte 7. -/
theorem update_not_full_copy :
    state7b.length = 300 ∧ state7b.data 400 = 0 ∧ data7 400 = 7 ∧ (300 : Nat) ≠ 512 := by
  refine ⟨by decide, by decide, by decide, by decide⟩

/-- Claim C7 as amended: a matching call always sets universe and sequence
from the arguments; when the incoming length is below 512 it sets the
stored length to it and copies exactly data[0..length) (other indices
unchanged); when the incoming length is 512 or more the stored length L is
left unchanged and only data[0..L) is copied. -/
theorem update_copy_characterisation (cfg : Config) (u len seq : Nat)
    (d : Nat → Nat) (g : GlobalState) (hu : u = cfg.universe_) :
    (onDmxPacket cfg u len seq d g).universe_ = u ∧
    (onDmxPacket cfg u len seq d g).sequence = seq ∧
    (onDmxPacket cfg u len seq d g).length =
      (if len < 512 then len else g.length) ∧
    (∀ i, i < (onDmxPacket cfg u len seq d g).length →
      (onDmxPacket cfg u len seq d g).data i = d i) ∧
    (∀ i, (onDmxPacket cfg u len seq d g).length ≤ i →
      (onDmxPacket cfg u len seq d g).data i = g.data i) ∧
    (len < 512 → (onDmxPacket cfg u len seq d g).length = len) := by
  have hlen : (onDmxPacket cfg u len seq d g).length =
      (if len < 512 then len else g.length) := by
    rw [onDmxPacket_length cfg u len seq d g]
    by_cases hl : len < 512
    · rw [if_pos (And.intro hu hl), if_pos hl]
    · rw [if_neg (fun hc => hl hc.2), if_neg hl]
  have hdata := onDmxPacket_data cfg u len seq d g hu
  refine ⟨?_, ?_, hlen, ?_, ?_, ?_⟩
  · rw [onDmxPacket_match cfg u len seq d g hu]
  · rw [onDmxPacket_match cfg u len seq d g hu]
  · intro i hi
    rw [hlen] at hi
    rw [hdata, copyLoop_apply, if_pos hi]
  · intro i hi
    rw [hlen] at hi
    rw [hdata, copyLoop_apply, if_neg (by omega)]
  · intro hl
    rw [hlen, if_pos hl]

/-- Witness for the amended C7: the 3-channel packet sets sequence 1 and
length 3, copies byte 0 from the packet, and leaves byte 5 at its old
value. -/
theorem update_copy_characterisation_witness :
    stateA.sequence = 1 ∧ stateA.length = 3 ∧
    stateA.data 0 = dataA 0 ∧ stateA.data 5 = initialState.data 5 := by
  have h := update_copy_characterisation cfgA 0 3 1 dataA initialState rfl
  refine ⟨h.2.1, h.2.2.2.2.2 (by decide), ?_, ?_⟩
  · exact h.2.2.2.1 0 (by rw [h.2.2.2.2.2 (by decide)]; decide)
  · exact h.2.2.2.2.1 5 (by rw [h.2.2.2.2.2 (by decide)]; decide)

/-- Counterexample to claim C8: with delay 25 and elapsed time exactly 25
(at least the configured delay), the scheduler does not fire. -/
theorem scheduler_boundary :
    cfgB.delay = 25 ∧ 25 - (LoopState.mk 0).tic_loop ≥ cfgB.delay ∧
    (loopTick cfgB 25 (LoopState.mk 0)).2 = false := by
  refine ⟨by decide, by decide, by decide⟩

/-- Claim C8 as amended: the scheduler fires exactly when the elapsed time
since the last fired tick is strictly greater than the configured delay,
updating the timestamp when it fires and keeping the state otherwise; with
delay 25 ms, a second invocation 10 ms after a fired one does not fire (one
transport invocation in total) while one 30 ms after does (two in
total). -/
theorem scheduler_fires_iff (cfg : Config) (now : Nat) (s : LoopState) :
    ((loopTick cfg now s).2 = true ↔ now - s.tic_loop > cfg.delay) ∧
    ((loopTick cfg now s).2 = true → (loopTick cfg now s).1.tic_loop = now) ∧
    ((loopTick cfg now s).2 = false → (loopTick cfg now s).1 = s) ∧
    (cfg.delay = 25 → (loopTick cfg now s).2 = true →
      (loopTick cfg (now + 10) (loopTick cfg now s).1).2 = false ∧
      (loopTick cfg (now + 30) (loopTick cfg now s).1).2 = true) := by
  by_cases h : now - s.tic_loop > cfg.delay
  · have hstep : loopTick cfg now s = (LoopState.mk now, true) := by
      unfold loopTick
      rw [if_pos h]
    rw [hstep]
    refine ⟨by simp [h], fun _ => rfl, by simp, fun hd _ => ?_⟩
    constructor
    · unfold loopTick
      rw [if_neg (by rw [hd]; show ¬ now + 10 - now > 25; omega)]
    · unfold loopTick
      rw [if_pos (by rw [hd]; show now + 30 - now > 25; omega)]
  · have hstep : loopTick cfg now s = (s, false) := by
      unfold loopTick
      rw [if_neg h]
    rw [hstep]
    exact ⟨by simp [h], by simp, fun _ => rfl, fun _ hf => by simp at hf⟩

/-- Witness for the amended C8: the first invocation at 26 ms fires, a
second one 10 ms later does not, and one 30 ms later does. -/
theorem scheduler_fires_iff_witness :
    (loopTick cfgB 26 (LoopState.mk 0)).2 = true ∧
    (loopTick cfgB (26 + 10) (loopTick cfgB 26 (LoopState.mk 0)).1).2 = false ∧
    (loopTick cfgB (26 + 30) (loopTick cfgB 26 (LoopState.mk 0)).1).2 = true := by
  have h := scheduler_fires_iff cfgB 26 (LoopState.mk 0)
  have hf : (loopTick cfgB 26 (LoopState.mk 0)).2 = true := h.1.mpr (by decide)
  have hs := h.2.2.2 (by decide) hf
  exact ⟨hf, hs.1, hs.2⟩

end ArtnetDmx
